import Mathlib

/-!
Verification development for the AURN air-quality scraper
(Airquality_scraper.py).  The definitions below are a shallow embedding of
the two core methods of class AURNScraper — find_sites_by_distance and
download_monitoring_data — together with the private helper
_check_for_image_download.  External collaborators (the browser, the web
page, the filesystem) are modelled by explicit data: the year-link list
extracted for a site is an input, and the local download directory is a
list of file names.
-/

namespace AirQuality

/-! ### Python str.split with a one-character separator

The code derives the local file name of a download link by
  split_list = linkname.split('/')
  name = split_list[len(split_list)-1].split('?')[0]
pysplit models Python's str.split for a single-character separator: it
returns the first segment together with the list of remaining segments,
so that the full segment list (which Python guarantees nonempty) is
fst :: snd. -/
def pysplit (c : Char) : List Char → List Char × List (List Char)
  | [] => ([], [])
  | x :: xs =>
      let r := pysplit c xs
      if x = c then ([], r.1 :: r.2) else (x :: r.1, r.2)

/-- The last of the segments produced by pysplit, i.e. Python's
split_list[len(split_list)-1]. -/
def lastSeg (c : Char) (l : List Char) : List Char :=
  (pysplit c l).2.getLastD (pysplit c l).1

/-- Embedding of lines 312-313 of Airquality_scraper.py: the target local
file name derived from a download link. -/
def deriveName (href : String) : String :=
  String.mk (pysplit '?' (lastSeg '/' href.data)).1

/-- Modelled from the spec's words (claim C7): take the final
'/'-separated segment of the reference and strip any '?'-query suffix
from it.  Stated independently of pysplit, for comparison with
deriveName. -/
def specTargetName (href : String) : String :=
  String.mk (((href.data.reverse.takeWhile (fun c => c ≠ '/')).reverse).takeWhile
    (fun c => c ≠ '?'))

/-! #### takeWhile helpers -/

theorem takeWhile_eq_self_of_all {p : Char → Bool} :
    ∀ {l : List Char}, (∀ x ∈ l, p x = true) → l.takeWhile p = l := by
  intro l h
  induction l with
  | nil => rfl
  | cons x xs ih =>
      simp only [List.takeWhile_cons]
      rw [h x (by simp)]
      simp only [if_true, ih (fun y hy => h y (by simp [hy]))]

theorem takeWhile_append_of_all {p : Char → Bool} :
    ∀ {l₁ l₂ : List Char}, (∀ x ∈ l₁, p x = true) →
      (l₁ ++ l₂).takeWhile p = l₁ ++ l₂.takeWhile p := by
  intro l₁ l₂ h
  induction l₁ with
  | nil => rfl
  | cons x xs ih =>
      simp only [List.cons_append, List.takeWhile_cons]
      rw [h x (by simp)]
      simp only [if_true, ih (fun y hy => h y (by simp [hy]))]

theorem takeWhile_append_of_exists {p : Char → Bool} :
    ∀ {l₁ l₂ : List Char}, (∃ x ∈ l₁, p x = false) →
      (l₁ ++ l₂).takeWhile p = l₁.takeWhile p := by
  intro l₁ l₂ h
  induction l₁ with
  | nil => simp at h
  | cons x xs ih =>
      simp only [List.cons_append, List.takeWhile_cons]
      cases hx : p x with
      | false => rfl
      | true =>
          obtain ⟨y, hy, hpy⟩ := h
          rcases List.mem_cons.mp hy with rfl | hmem
          · rw [hx] at hpy; exact absurd hpy (by simp)
          · rw [ih ⟨y, hmem, hpy⟩]

theorem takeWhile_concat_of_false {p : Char → Bool} {l : List Char} {a : Char}
    (ha : p a = false) : (l ++ [a]).takeWhile p = l.takeWhile p := by
  by_cases hall : ∀ x ∈ l, p x = true
  · rw [takeWhile_append_of_all hall, takeWhile_eq_self_of_all hall]
    simp [List.takeWhile_cons, ha]
  · push_neg at hall
    obtain ⟨x, hx, hpx⟩ := hall
    exact takeWhile_append_of_exists ⟨x, hx, by simpa using hpx⟩

/-! #### pysplit lemmas -/

theorem pysplit_cons_pos (c : Char) (xs : List Char) :
    pysplit c (c :: xs) = ([], (pysplit c xs).1 :: (pysplit c xs).2) := by
  simp [pysplit]

theorem pysplit_cons_neg {c x : Char} (hx : x ≠ c) (xs : List Char) :
    pysplit c (x :: xs) = (x :: (pysplit c xs).1, (pysplit c xs).2) := by
  simp [pysplit, hx]

theorem pysplit_fst_eq_takeWhile (c : Char) :
    ∀ l : List Char, (pysplit c l).1 = l.takeWhile (fun x => x ≠ c) := by
  intro l
  induction l with
  | nil => rfl
  | cons x xs ih =>
      by_cases hx : x = c
      · subst hx
        rw [pysplit_cons_pos]
        simp [List.takeWhile_cons]
      · rw [pysplit_cons_neg hx]
        simp only [List.takeWhile_cons]
        have hd : (fun y => decide (y ≠ c)) x = true := by simp [hx]
        simp only [hd, if_true, ih]

theorem pysplit_snd_nil_iff (c : Char) :
    ∀ l : List Char, (pysplit c l).2 = [] ↔ c ∉ l := by
  intro l
  induction l with
  | nil => simp [pysplit]
  | cons x xs ih =>
      by_cases hx : x = c
      · subst hx
        rw [pysplit_cons_pos]
        simp
      · rw [pysplit_cons_neg hx]
        simp only [List.mem_cons]
        rw [ih]
        constructor
        · intro h hmem
          rcases hmem with h1 | h2
          · exact hx h1.symm
          · exact h h2
        · intro h
          exact fun hm => h (Or.inr hm)

theorem getLastD_of_ne_nil {α : Type} :
    ∀ {t : List α} (a b : α), t ≠ [] → t.getLastD a = t.getLastD b := by
  intro t a b ht
  cases t with
  | nil => exact absurd rfl ht
  | cons x xs =>
      rw [List.getLastD_cons, List.getLastD_cons]

theorem lastSeg_eq_rev_takeWhile (c : Char) :
    ∀ l : List Char,
      lastSeg c l = (l.reverse.takeWhile (fun x => x ≠ c)).reverse := by
  intro l
  induction l with
  | nil => rfl
  | cons x xs ih =>
      simp only [List.reverse_cons]
      by_cases hx : x = c
      · subst hx
        unfold lastSeg
        rw [pysplit_cons_pos]
        simp only [List.getLastD_cons]
        rw [takeWhile_concat_of_false (by simp)]
        exact ih
      · unfold lastSeg
        rw [pysplit_cons_neg hx]
        rcases ht : (pysplit c xs).2 with _ | ⟨t0, ts⟩
        · have hnotin : c ∉ xs := (pysplit_snd_nil_iff c xs).mp ht
          have hfst : (pysplit c xs).1 = xs := by
            rw [pysplit_fst_eq_takeWhile]
            exact takeWhile_eq_self_of_all (by
              intro y hy
              simp only [decide_eq_true_eq]
              exact fun hyc => hnotin (hyc ▸ hy))
          simp only [List.getLastD_nil, hfst]
          rw [takeWhile_eq_self_of_all (by
            intro y hy
            simp only [decide_eq_true_eq]
            rcases List.mem_append.mp hy with h1 | h2
            · exact fun hyc => hnotin (hyc ▸ (List.mem_reverse.mp h1))
            · simp at h2; subst h2; exact hx)]
          simp
        · have hcin : c ∈ xs := by
            by_contra hc
            have : (pysplit c xs).2 = [] := (pysplit_snd_nil_iff c xs).mpr hc
            rw [ht] at this
            exact absurd this (by simp)
          have step : ((t0 :: ts).getLastD (x :: (pysplit c xs).1))
              = lastSeg c xs := by
            rw [show lastSeg c xs = (pysplit c xs).2.getLastD (pysplit c xs).1
              from rfl, ht]
            exact getLastD_of_ne_nil _ _ (by simp)
          rw [step, ih, takeWhile_append_of_exists
            ⟨c, List.mem_reverse.mpr hcin, by simp⟩]

/-- Claim C7: for every download reference, the derived target local file
name equals the spec-level description — the final '/'-separated segment
of the reference with any '?'-query suffix stripped. -/
theorem claim_C7_filename_derivation (href : String) :
    deriveName href = specTargetName href := by
  unfold deriveName specTargetName
  rw [pysplit_fst_eq_takeWhile, lastSeg_eq_rev_takeWhile]

example : deriveName "https://uk-air.defra.gov.uk/data/AB2019.csv?v=1" = "AB2019.csv" := by
  decide

example : deriveName "abc" = "abc" := by decide

/-! ### find_sites_by_distance (lines 223-266)

The pickled catalog is a dataframe whose Coordinates column holds, per
row, either a two-element list of integers [X_co, Y_co] (the successful
int() parse in _retrieve_site_info), or the raw string from the page
when the parse failed, or a missing value NaN (rows padded by the
dict-of-lists transpose in all_sites_info). -/

inductive Coord where
  | pair (x y : ℤ)
  | strv (s : String)
  | nanv
deriving DecidableEq, Repr

/-- A catalog row; only the fields the core methods touch are modelled. -/
structure Row where
  name : String
  coords : Coord
deriving DecidableEq, Repr

/-- Result of pandas Series.str[i] on one Coordinates cell: a number (the
list element), a character (of a string cell), or NaN (missing value or
index out of range). -/
inductive CellVal where
  | num (q : ℚ)
  | ch (c : Char)
  | nanv
deriving DecidableEq, Repr

/-- pandas .str[i] on a Coordinates cell: element i of a list, character
i of a string, NaN for a missing value or an out-of-range index. -/
def strGet (i : Nat) : Coord → CellVal
  | Coord.pair x y => if i = 0 then CellVal.num (x : ℚ) else CellVal.num (y : ℚ)
  | Coord.strv s =>
      match s.data[i]? with
      | some c => CellVal.ch c
      | none => CellVal.nanv
  | Coord.nanv => CellVal.nanv

instance {ε α : Type} [DecidableEq ε] [DecidableEq α] :
    DecidableEq (Except ε α) := fun x y =>
  match x, y with
  | Except.ok a, Except.ok b =>
      if h : a = b then Decidable.isTrue (by rw [h])
      else Decidable.isFalse (fun hc => h (by injection hc))
  | Except.error a, Except.error b =>
      if h : a = b then Decidable.isTrue (by rw [h])
      else Decidable.isFalse (fun hc => h (by injection hc))
  | Except.ok _, Except.error _ =>
      Decidable.isFalse (fun hc => Except.noConfusion hc)
  | Except.error _, Except.ok _ =>
      Decidable.isFalse (fun hc => Except.noConfusion hc)

/-- One row of the vectorised arithmetic of line 261,
((X - colX)^2 + (Y - colY)^2): subtracting a character from a float
raises TypeError (modelled as Except.error), NaN propagates (none), and
numbers give the squared distance.  The final **0.5 and the comparison
of line 263 are folded into keepB below. -/
def distCell (X Y : ℚ) (c : Coord) : Except Unit (Option ℚ) :=
  match strGet 0 c, strGet 1 c with
  | CellVal.ch _, _ => Except.error ()
  | _, CellVal.ch _ => Except.error ()
  | CellVal.num x, CellVal.num y =>
      Except.ok (some ((X - x) * (X - x) + (Y - y) * (Y - y)))
  | _, _ => Except.ok none

/-- The whole distance column; a TypeError on any row aborts the whole
vectorised operation. -/
def distColumn (X Y : ℚ) : List Row → Except Unit (List (Option ℚ))
  | [] => Except.ok []
  | r :: rs =>
      match distCell X Y r.coords, distColumn X Y rs with
      | Except.error _, _ => Except.error ()
      | _, Except.error _ => Except.error ()
      | Except.ok d, Except.ok ds => Except.ok (d :: ds)

/-- The row filter of line 263, distance from point < distance_m.  The
source compares sqrt(d2) < distance_m; over the rationals we use the
equivalent test 0 < distance_m and d2 < distance_m^2 (the equivalence
for 0 <= d2 is proved in keepB_iff_sqrt_lt), keeping the definition
executable.  A NaN distance compares False. -/
def keepB (distance_m : ℚ) : Option ℚ → Bool
  | some d2 => decide (0 < distance_m) && decide (d2 < distance_m * distance_m)
  | none => false

/-- Keep the rows whose distance cell passes the filter. -/
def filterKept (distance_m : ℚ) : List Row → List (Option ℚ) → List Row
  | r :: rs, d :: ds =>
      if keepB distance_m d then r :: filterKept distance_m rs ds
      else filterKept distance_m rs ds
  | _, _ => []

/-- Embedding of find_sites_by_distance (lines 249-266).  The catalog
argument is none when All_Sites_Outputs.pkl is absent: the except branch
prints a message and returns None (modelled Except.ok none).  A
TypeError from the vectorised arithmetic propagates (Except.error).
Otherwise the filtered rows are returned; the derived X / Y / distance
columns are not carried since no claim concerns their stored values. -/
def find_sites_by_distance (catalog : Option (List Row)) (X Y distance_m : ℚ) :
    Except Unit (Option (List Row)) :=
  match catalog with
  | none => Except.ok none
  | some rows =>
      match distColumn X Y rows with
      | Except.error _ => Except.error ()
      | Except.ok ds => Except.ok (some (filterKept distance_m rows ds))

/-- Per-row restatement of the filter, used to characterise the output. -/
def rowKeep (X Y distance_m : ℚ) (r : Row) : Bool :=
  match distCell X Y r.coords with
  | Except.ok d => keepB distance_m d
  | Except.error _ => false

/-- A Coordinates cell that is a nonempty string: the one shape on which
the vectorised arithmetic raises TypeError. -/
def isCharish : Coord → Bool
  | Coord.strv s => !s.data.isEmpty
  | _ => false

/-- A cell with no resolved (x,y) pair. -/
def isUnresolved : Coord → Bool
  | Coord.pair _ _ => false
  | _ => true

/-! #### find_sites_by_distance lemmas -/

theorem distCell_pair (X Y : ℚ) (x y : ℤ) :
    distCell X Y (Coord.pair x y)
      = Except.ok (some ((X - x) * (X - x) + (Y - y) * (Y - y))) := rfl

theorem distCell_ok_of_not_charish {X Y : ℚ} {c : Coord}
    (h : isCharish c = false) : ∃ d, distCell X Y c = Except.ok d := by
  cases c with
  | pair x y => exact ⟨some ((X - x) * (X - x) + (Y - y) * (Y - y)), rfl⟩
  | strv s =>
      simp only [isCharish, Bool.not_eq_false'] at h
      have hdata : s.data = [] := List.isEmpty_iff.mp h
      refine ⟨none, ?_⟩
      simp [distCell, strGet, hdata]
  | nanv => exact ⟨none, rfl⟩

theorem distCell_some_imp_pair {X Y : ℚ} {c : Coord} {d2 : ℚ}
    (h : distCell X Y c = Except.ok (some d2)) :
    ∃ x y : ℤ, c = Coord.pair x y ∧
      d2 = (X - x) * (X - x) + (Y - y) * (Y - y) := by
  cases c with
  | pair x y =>
      refine ⟨x, y, rfl, ?_⟩
      rw [distCell_pair] at h
      simp only [Except.ok.injEq, Option.some.injEq] at h
      exact h.symm
  | strv s =>
      exfalso
      cases h0 : s.data[0]? with
      | some a => simp [distCell, strGet, h0] at h
      | none =>
          cases h1 : s.data[1]? with
          | some a => simp [distCell, strGet, h0, h1] at h
          | none => simp [distCell, strGet, h0, h1] at h
  | nanv => simp [distCell, strGet] at h

theorem distColumn_ok_of_not_charish {X Y : ℚ} :
    ∀ {rows : List Row}, (∀ r ∈ rows, isCharish r.coords = false) →
      ∃ ds, distColumn X Y rows = Except.ok ds := by
  intro rows h
  induction rows with
  | nil => exact ⟨[], rfl⟩
  | cons r rs ih =>
      obtain ⟨d, hd⟩ := distCell_ok_of_not_charish (X := X) (Y := Y)
        (h r (by simp))
      obtain ⟨ds, hds⟩ := ih (fun x hx => h x (by simp [hx]))
      exact ⟨d :: ds, by simp [distColumn, hd, hds]⟩

theorem filterKept_eq_filter {X Y dm : ℚ} :
    ∀ {rows : List Row} {ds : List (Option ℚ)},
      distColumn X Y rows = Except.ok ds →
      filterKept dm rows ds = rows.filter (rowKeep X Y dm) := by
  intro rows
  induction rows with
  | nil =>
      intro ds h
      simp only [distColumn, Except.ok.injEq] at h
      subst h
      rfl
  | cons r rs ih =>
      intro ds h
      cases hc : distCell X Y r.coords with
      | error e => simp [distColumn, hc] at h
      | ok d =>
          cases hcol : distColumn X Y rs with
          | error e => simp [distColumn, hc, hcol] at h
          | ok ds' =>
              simp only [distColumn, hc, hcol, Except.ok.injEq] at h
              subst h
              simp only [filterKept, List.filter_cons]
              have hrk : rowKeep X Y dm r = keepB dm d := by
                simp [rowKeep, hc]
              rw [hrk, ih hcol]

theorem keepB_iff_sqrt_lt {d2 dm : ℚ} :
    keepB dm (some d2) = true ↔ Real.sqrt (d2 : ℝ) < (dm : ℝ) := by
  simp only [keepB, Bool.and_eq_true, decide_eq_true_eq]
  constructor
  · rintro ⟨h1, h2⟩
    have hdm : (0 : ℝ) < (dm : ℝ) := by exact_mod_cast h1
    rw [Real.sqrt_lt' hdm]
    have : ((d2 : ℝ)) < (dm : ℝ) * (dm : ℝ) := by exact_mod_cast h2
    calc ((d2 : ℝ)) < (dm : ℝ) * (dm : ℝ) := this
      _ = (dm : ℝ) ^ 2 := by ring
  · intro hs
    have hdm : (0 : ℝ) < (dm : ℝ) :=
      lt_of_le_of_lt (Real.sqrt_nonneg _) hs
    have h1 : (0 : ℚ) < dm := by exact_mod_cast hdm
    refine ⟨h1, ?_⟩
    have := (Real.sqrt_lt' hdm).mp hs
    have h2 : ((d2 : ℝ)) < (dm : ℝ) * (dm : ℝ) := by
      calc ((d2 : ℝ)) < (dm : ℝ) ^ 2 := this
        _ = (dm : ℝ) * (dm : ℝ) := by ring
    exact_mod_cast h2

/-- Claim C6: when the catalog snapshot file is absent,
find_sites_by_distance reports the problem as a message and returns
nothing; it does not raise to the caller. -/
theorem claim_C6_missing_snapshot_returns_none (X Y dm : ℚ) :
    find_sites_by_distance none X Y dm = Except.ok none := rfl

/-- Claim C2, counterexample: a site whose Coordinates cell is the
nonempty unresolved string sentinel makes find_sites_by_distance raise
a TypeError (pandas .str[0] yields the first character of the string and
subtracting a character from a float raises), instead of the site being
silently excluded.  So the claim as stated — excluded, not errored — is
false. -/
theorem claim_C2_counterexample :
    isUnresolved (Coord.strv "NA") = true ∧
      find_sites_by_distance (some [⟨"Site S", Coord.strv "NA"⟩]) 0 0 1000
        = Except.error () := by
  constructor
  · rfl
  · rfl

/-- Claim C2, amended: provided no site's Coordinates cell is a nonempty
string (the sentinel shape on which the vectorised arithmetic raises
TypeError), find_sites_by_distance succeeds and its output contains only
sites with resolved (x,y) pairs — sites with missing or empty-string
coordinates never appear, for every radius. -/
theorem claim_C2_unresolved_excluded (rows : List Row) (X Y dm : ℚ)
    (hchar : ∀ r ∈ rows, isCharish r.coords = false) :
    ∃ out, find_sites_by_distance (some rows) X Y dm = Except.ok (some out) ∧
      ∀ r ∈ out, isUnresolved r.coords = false := by
  obtain ⟨ds, hds⟩ := distColumn_ok_of_not_charish (X := X) (Y := Y) hchar
  refine ⟨rows.filter (rowKeep X Y dm), ?_, ?_⟩
  · simp [find_sites_by_distance, hds, filterKept_eq_filter hds]
  · intro r hr
    have hk : rowKeep X Y dm r = true := (List.mem_filter.mp hr).2
    cases hc : distCell X Y r.coords with
    | error e => simp [rowKeep, hc] at hk
    | ok d =>
        cases d with
        | none => simp [rowKeep, hc, keepB] at hk
        | some d2 =>
            obtain ⟨x, y, hxy, _⟩ := distCell_some_imp_pair hc
            rw [hxy]
            rfl

/-- Claim C2 witness: on a concrete catalog with one resolved and one
NaN-coordinate site, the call succeeds and the output has no unresolved
site. -/
theorem claim_C2_witness :
    ∃ out, find_sites_by_distance
        (some [⟨"Site A", Coord.pair 0 0⟩, ⟨"Site N", Coord.nanv⟩]) 0 0 10
        = Except.ok (some out) ∧
      ∀ r ∈ out, isUnresolved r.coords = false :=
  claim_C2_unresolved_excluded _ 0 0 10 (by decide)

/-- Claim C4: whenever find_sites_by_distance returns a result, a site
with resolved coordinates (x, y) is kept if and only if the Euclidean
distance sqrt((X-x)^2 + (Y-y)^2) is strictly below distance_m; in
particular a site exactly at the radius (squared distance equal to
distance_m * distance_m) is absent. -/
theorem claim_C4_strict_inequality (rows out : List Row) (X Y dm : ℚ)
    (hok : find_sites_by_distance (some rows) X Y dm = Except.ok (some out))
    (r : Row) (hr : r ∈ rows) (x y : ℤ) (hc : r.coords = Coord.pair x y) :
    (r ∈ out ↔
        Real.sqrt (((X - x) ^ 2 + (Y - y) ^ 2 : ℚ) : ℝ) < (dm : ℝ)) ∧
      (((X - x) ^ 2 + (Y - y) ^ 2 : ℚ) = dm * dm → r ∉ out) := by
  have hcol : ∃ ds, distColumn X Y rows = Except.ok ds := by
    cases hds : distColumn X Y rows with
    | error e => simp [find_sites_by_distance, hds] at hok
    | ok ds => exact ⟨ds, rfl⟩
  obtain ⟨ds, hds⟩ := hcol
  have hout : out = rows.filter (rowKeep X Y dm) := by
    simp only [find_sites_by_distance, hds, Except.ok.injEq,
      Option.some.injEq] at hok
    rw [← hok, filterKept_eq_filter hds]
  have hcell : distCell X Y r.coords
      = Except.ok (some ((X - x) * (X - x) + (Y - y) * (Y - y))) := by
    rw [hc, distCell_pair]
  have hd2 : (X - x) * (X - x) + (Y - y) * (Y - y)
      = (X - x) ^ 2 + (Y - y) ^ 2 := by ring
  rw [hd2] at hcell
  have hmem : r ∈ out ↔ keepB dm (some ((X - x) ^ 2 + (Y - y) ^ 2)) = true := by
    rw [hout, List.mem_filter]
    constructor
    · intro h
      have := h.2
      rwa [rowKeep, hcell] at this
    · intro h
      exact ⟨hr, by rwa [rowKeep, hcell]⟩
  constructor
  · rw [hmem]
    exact keepB_iff_sqrt_lt
  · intro heq hmem'
    have := hmem.mp hmem'
    simp only [keepB, Bool.and_eq_true, decide_eq_true_eq] at this
    exact absurd (heq ▸ this.2) (lt_irrefl _)

/-! ### download_monitoring_data (lines 269-323)

Per selected site, the browser extracts an ordered list of year links
(all_years); each entry carries its anchor text (AURN_year.text) and its
href.  The link list per site and the set of file names already present
in the download directory are inputs of the embedding; a click on a year
link downloads the file under its derived name, modelled as adding that
name to the directory. -/

/-- The report dictionary built by download_monitoring_data. -/
structure Report where
  successCount : Nat
  failures : List String
deriving DecidableEq, Repr

/-- One row of the selected-sites dataframe together with the year links
extracted from its detail page: (anchor text, href) pairs. -/
structure SiteRow where
  name : String
  links : List (String × String)
deriving DecidableEq, Repr

/-- The inner loop of lines 309-321.  State: the download directory fs,
the running success count, the count recorded before this site's loop
(downloads_before_loop), and the failure list.  loopNo / total mirror
the zip with range(len(all_years)) and the final-iteration test of line
319. -/
def siteLoop (year : ℤ) : List (String × String) → Nat → Nat →
    List String → Nat → Nat → List String → String →
    List String × Nat × List String
  | [], _, _, fs, count, _, failures, _ => (fs, count, failures)
  | (text, href) :: rest, total, loopNo, fs, count, before, failures, name =>
      let st :=
        if text = toString year then
          let nm := deriveName href
          if nm ∈ fs then (fs, count)
          else (nm :: fs, count + 1)
        else (fs, count)
      let failures' :=
        if loopNo + 1 = total then
          if before = st.2 then failures ++ [name] else failures
        else failures
      siteLoop year rest total (loopNo + 1) st.1 st.2 before failures' name

/-- One iteration of the outer per-site loop of line 295: run the link
scan with downloads_before_loop set to the current count. -/
def processSite (year : ℤ) (st : List String × Nat × List String)
    (row : SiteRow) : List String × Nat × List String :=
  siteLoop year row.links row.links.length 0 st.1 st.2.1 st.2.1 st.2.2 row.name

/-- Embedding of download_monitoring_data: the report starts at
(0, []) and the sites are processed sequentially; the final download
directory is returned alongside the report. -/
def download_monitoring_data (fs : List String) (rows : List SiteRow)
    (year : ℤ) : List String × Report :=
  let res := List.foldl (processSite year) (fs, 0, []) rows
  (res.1, ⟨res.2.1, res.2.2⟩)

/-! #### Clean recursions used to characterise the loop -/

/-- The downloads performed while scanning one site's link list: the
resulting directory and the number of new files written. -/
def siteRun (year : ℤ) : List (String × String) → List String →
    List String × Nat
  | [], fs => (fs, 0)
  | (text, href) :: rest, fs =>
      if text = toString year then
        let nm := deriveName href
        if nm ∈ fs then siteRun year rest fs
        else
          let r := siteRun year rest (nm :: fs)
          (r.1, r.2 + 1)
      else siteRun year rest fs

/-- Per-site counts of new files written, in processing order, with the
directory threaded from site to site. -/
def perSiteNew (year : ℤ) (fs : List String) : List SiteRow → List Nat
  | [] => []
  | r :: rs =>
      (siteRun year r.links fs).2 ::
        perSiteNew year (siteRun year r.links fs).1 rs

/-- Names of the sites reported unsuccessful, in processing order: a
site is appended exactly when its link list is nonempty and it produced
no new download. -/
def failNames (year : ℤ) (fs : List String) : List SiteRow → List String
  | [] => []
  | r :: rs =>
      (if r.links ≠ [] ∧ (siteRun year r.links fs).2 = 0
        then [r.name] else []) ++
        failNames year (siteRun year r.links fs).1 rs

/-- The download directory after the whole run. -/
def runFs (year : ℤ) (fs : List String) : List SiteRow → List String
  | [] => fs
  | r :: rs => runFs year (siteRun year r.links fs).1 rs

theorem siteLoop_cons (year : ℤ) (text href : String)
    (rest : List (String × String)) (total loopNo : Nat) (fs : List String)
    (count before : Nat) (failures : List String) (name : String) :
    siteLoop year ((text, href) :: rest) total loopNo fs count before
        failures name =
      siteLoop year rest total (loopNo + 1)
        (if text = toString year then
          (if deriveName href ∈ fs then fs else deriveName href :: fs)
         else fs)
        (if text = toString year then
          (if deriveName href ∈ fs then count else count + 1)
         else count)
        before
        (if loopNo + 1 = total then
          (if before = (if text = toString year then
              (if deriveName href ∈ fs then count else count + 1)
            else count)
           then failures ++ [name] else failures)
         else failures)
        name := by
  by_cases hmatch : text = toString year
  · by_cases hmem : deriveName href ∈ fs
    · simp [siteLoop, hmatch, hmem]
    · simp [siteLoop, hmatch, hmem]
  · simp [siteLoop, hmatch]

theorem siteRun_cons (year : ℤ) (text href : String)
    (rest : List (String × String)) (fs : List String) :
    siteRun year ((text, href) :: rest) fs =
      if text = toString year then
        (if deriveName href ∈ fs then siteRun year rest fs
         else ((siteRun year rest (deriveName href :: fs)).1,
           (siteRun year rest (deriveName href :: fs)).2 + 1))
      else siteRun year rest fs := by
  by_cases hmatch : text = toString year
  · by_cases hmem : deriveName href ∈ fs
    · simp [siteRun, hmatch, hmem]
    · simp [siteRun, hmatch, hmem]
  · simp [siteRun, hmatch]

theorem siteLoop_eq_siteRun (year : ℤ) :
    ∀ (links : List (String × String)) (total loopNo : Nat)
      (fs : List String) (count before : Nat) (failures : List String)
      (name : String), loopNo + links.length = total →
      siteLoop year links total loopNo fs count before failures name =
        ((siteRun year links fs).1, count + (siteRun year links fs).2,
          failures ++
            if links ≠ [] ∧ before = count + (siteRun year links fs).2
            then [name] else []) := by
  intro links
  induction links with
  | nil =>
      intro total loopNo fs count before failures name _
      simp [siteLoop, siteRun]
  | cons p rest ih =>
      intro total loopNo fs count before failures name htot
      obtain ⟨text, href⟩ := p
      simp only [List.length_cons] at htot
      rw [siteLoop_cons, siteRun_cons]
      by_cases hlast : rest = []
      · subst hlast
        simp only [List.length_nil] at htot
        have h1 : loopNo + 1 = total := by omega
        rw [ih total (loopNo + 1) _ _ before _ name (by simpa using h1)]
        by_cases hmatch : text = toString year
        · by_cases hmem : deriveName href ∈ fs
          · simp only [if_pos hmatch, if_pos hmem, if_pos h1]
            by_cases hbe : before = count <;> simp [siteRun, hbe]
          · simp only [if_pos hmatch, if_neg hmem, if_pos h1]
            by_cases hbe : before = count + 1 <;> simp [siteRun, hbe]
        · simp only [if_neg hmatch, if_pos h1]
          by_cases hbe : before = count <;> simp [siteRun, hbe]
      · have h1 : loopNo + 1 ≠ total := by
          intro hc
          have : rest.length = 0 := by omega
          exact hlast (List.length_eq_zero.mp this)
        have htot' : (loopNo + 1) + rest.length = total := by omega
        rw [ih total (loopNo + 1) _ _ before _ name htot']
        by_cases hmatch : text = toString year
        · by_cases hmem : deriveName href ∈ fs
          · simp [if_pos hmatch, if_pos hmem, if_neg h1, hlast]
          · have harith : count + 1 + (siteRun year rest
                (deriveName href :: fs)).2
              = count + ((siteRun year rest (deriveName href :: fs)).2 + 1) := by
              omega
            simp only [if_pos hmatch, if_neg hmem, if_neg h1, hlast, ne_eq,
              not_false_iff, true_and, List.cons_ne_nil, Prod.mk.injEq,
              harith]
        · simp [if_neg hmatch, if_neg h1, hlast]

theorem processSite_eq (year : ℤ) (fs : List String) (count : Nat)
    (failures : List String) (row : SiteRow) :
    processSite year (fs, count, failures) row =
      ((siteRun year row.links fs).1, count + (siteRun year row.links fs).2,
        failures ++
          if row.links ≠ [] ∧ (siteRun year row.links fs).2 = 0
          then [row.name] else []) := by
  rw [processSite, siteLoop_eq_siteRun year row.links row.links.length 0 fs
    count count failures row.name (by omega)]
  have : (row.links ≠ [] ∧ count = count + (siteRun year row.links fs).2)
      ↔ (row.links ≠ [] ∧ (siteRun year row.links fs).2 = 0) := by
    constructor
    · rintro ⟨ha, hb⟩; exact ⟨ha, by omega⟩
    · rintro ⟨ha, hb⟩; exact ⟨ha, by omega⟩
  by_cases hc : row.links ≠ [] ∧ (siteRun year row.links fs).2 = 0
  · rw [if_pos (this.mpr hc), if_pos hc]
  · rw [if_neg (fun h => hc (this.mp h)), if_neg hc]

theorem foldl_processSite_eq (year : ℤ) :
    ∀ (rows : List SiteRow) (fs : List String) (count : Nat)
      (failures : List String),
      List.foldl (processSite year) (fs, count, failures) rows =
        (runFs year fs rows, count + (perSiteNew year fs rows).sum,
          failures ++ failNames year fs rows) := by
  intro rows
  induction rows with
  | nil => intro fs count failures; simp [runFs, perSiteNew, failNames]
  | cons r rs ih =>
      intro fs count failures
      rw [List.foldl_cons, processSite_eq, ih]
      simp only [runFs, perSiteNew, failNames, List.sum_cons,
        List.append_assoc, Prod.mk.injEq, eq_self_iff_true, true_and,
        and_true]
      omega

/-- Claim C3, amended, as a characterisation of the report: successCount
is the total number of new files written during this invocation (the sum
of the per-site new-download counts — one site can contribute more than
one when several of its year entries match), and the failure list is
exactly the ordered list of names of sites whose nonempty link list
produced no new download. -/
theorem claim_C3_report_characterisation (fs : List String)
    (rows : List SiteRow) (year : ℤ) :
    (download_monitoring_data fs rows year).2.successCount
        = (perSiteNew year fs rows).sum ∧
      (download_monitoring_data fs rows year).2.failures
        = failNames year fs rows := by
  have h := foldl_processSite_eq year rows fs 0 []
  simp [download_monitoring_data, h]

/-- The report of a run, through the clean recursions. -/
theorem download_report_eq (fs : List String) (rows : List SiteRow)
    (year : ℤ) :
    (download_monitoring_data fs rows year).2
      = ⟨(perSiteNew year fs rows).sum, failNames year fs rows⟩ := by
  have h := foldl_processSite_eq year rows fs 0 []
  simp [download_monitoring_data, h]

/-- If every matching entry's derived file name is already present, the
scan downloads nothing and leaves the directory unchanged. -/
theorem siteRun_all_present (year : ℤ) :
    ∀ (links : List (String × String)) (fs : List String),
      (∀ l ∈ links, l.1 = toString year → deriveName l.2 ∈ fs) →
      siteRun year links fs = (fs, 0) := by
  intro links
  induction links with
  | nil => intro fs _; rfl
  | cons p rest ih =>
      intro fs h
      obtain ⟨text, href⟩ := p
      rw [siteRun_cons]
      by_cases hmatch : text = toString year
      · have hmem : deriveName href ∈ fs := h (text, href) (by simp) hmatch
        rw [if_pos hmatch, if_pos hmem]
        exact ih fs (fun l hl => h l (by simp [hl]))
      · rw [if_neg hmatch]
        exact ih fs (fun l hl => h l (by simp [hl]))

/-- A failing site (zero new downloads at every directory state, with a
nonempty link list) is named in failNames whenever it is among the
processed rows. -/
theorem mem_failNames_of_fail (year : ℤ) (r : SiteRow)
    (hz : ∀ fs₀ : List String, (siteRun year r.links fs₀).2 = 0)
    (hne : r.links ≠ []) :
    ∀ (rows : List SiteRow) (fs : List String), r ∈ rows →
      r.name ∈ failNames year fs rows := by
  intro rows
  induction rows with
  | nil => intro fs h; simp at h
  | cons r' rs ih =>
      intro fs hmem
      rcases List.mem_cons.mp hmem with rfl | hmem'
      · have : (if r.links ≠ [] ∧ (siteRun year r.links fs).2 = 0
            then [r.name] else []) = [r.name] := by
          rw [if_pos ⟨hne, hz fs⟩]
        rw [failNames, this]
        simp
      · rw [failNames]
        exact List.mem_append.mpr (Or.inr (ih _ hmem'))

/-- Claim C1, counterexample: Scenario D of the spec — the link list
holds a 2018 and a 2019 entry, year 2019 is requested, and the derived
target file AB2019.csv already exists locally.  The download is indeed
skipped and successCount stays 0, but the site's name IS appended to the
failure list, contradicting the claimed neutrality (failures = []). -/
theorem claim_C1_counterexample :
    (download_monitoring_data ["AB2019.csv"]
        [⟨"Site C", [("2018", "h/AB2018.csv"), ("2019", "h/AB2019.csv")]⟩]
        2019).2.successCount = 0 ∧
      (download_monitoring_data ["AB2019.csv"]
        [⟨"Site C", [("2018", "h/AB2018.csv"), ("2019", "h/AB2019.csv")]⟩]
        2019).2.failures = ["Site C"] := by
  constructor
  · rfl
  · rfl

/-- Claim C1, amended: for a site whose year-link list contains an entry
matching the requested year but every matching entry's derived target
file already exists locally, the download is skipped and successCount is
unchanged (0), but the site's name IS appended to the failure list —
an already-present file counts as an unsuccessful download in the
report. -/
theorem claim_C1_already_present_is_failure (fs : List String) (r : SiteRow)
    (year : ℤ) (hmatch : ∃ l ∈ r.links, l.1 = toString year)
    (hall : ∀ l ∈ r.links, l.1 = toString year → deriveName l.2 ∈ fs) :
    (download_monitoring_data fs [r] year).2
      = ⟨0, [r.name]⟩ := by
  rw [download_report_eq]
  have hzero : siteRun year r.links fs = (fs, 0) :=
    siteRun_all_present year r.links fs hall
  have hne : r.links ≠ [] := by
    obtain ⟨l, hl, _⟩ := hmatch
    intro hc
    rw [hc] at hl
    simp at hl
  simp [perSiteNew, failNames, hzero, hne]

/-- Claim C1 witness: with AB2019.csv already in the download directory
and a single site listing year 2019 at that file, the returned report is
successCount 0 and the site listed as a failure. -/
theorem claim_C1_witness :
    (download_monitoring_data ["AB2019.csv"]
        [⟨"Site C", [("2019", "h/AB2019.csv")]⟩] 2019).2
      = ⟨0, ["Site C"]⟩ :=
  claim_C1_already_present_is_failure ["AB2019.csv"]
    ⟨"Site C", [("2019", "h/AB2019.csv")]⟩ 2019
    (by decide) (by decide)

/-- Claim C5: a processed site whose nonempty year-link list has no
entry whose anchor text equals str(year) (string-exact, no numeric
coercion) is appended to the failure list of the returned report. -/
theorem claim_C5_no_match_is_failure (fs : List String)
    (rows : List SiteRow) (year : ℤ) (r : SiteRow) (hmem : r ∈ rows)
    (hne : r.links ≠ [])
    (hnomatch : ∀ l ∈ r.links, l.1 ≠ toString year) :
    r.name ∈ (download_monitoring_data fs rows year).2.failures := by
  rw [download_report_eq]
  have hz : ∀ fs₀ : List String, (siteRun year r.links fs₀).2 = 0 := by
    intro fs₀
    rw [siteRun_all_present year r.links fs₀
      (fun l hl hl1 => absurd hl1 (hnomatch l hl))]
  exact mem_failNames_of_fail year r hz hne rows fs hmem

/-- Claim C5 witness: the year label 02019 does not string-match the
requested year 2019 (no numeric coercion), so the site is reported
unsuccessful. -/
theorem claim_C5_witness :
    "Site S" ∈ (download_monitoring_data []
        [⟨"Site S", [("02019", "h/a.csv")]⟩] 2019).2.failures :=
  claim_C5_no_match_is_failure [] [⟨"Site S", [("02019", "h/a.csv")]⟩]
    2019 ⟨"Site S", [("02019", "h/a.csv")]⟩ (by simp) (by simp)
    (by decide)

/-- A site with an empty link list changes nothing: the inner loop body
never runs, so neither the count, the failure list, nor the directory
move. -/
theorem processSite_empty_links (year : ℤ)
    (st : List String × Nat × List String) (name : String) :
    processSite year st ⟨name, []⟩ = st := rfl

/-- Claim C8: a site whose extracted year-link list is empty leaves the
whole run unchanged — inserting such a site anywhere among the processed
rows changes neither the report nor the download directory (the
failure-append guard sits inside the per-link loop, which never
executes). -/
theorem claim_C8_empty_links_neutral (fs : List String)
    (rows₁ rows₂ : List SiteRow) (name : String) (year : ℤ) :
    download_monitoring_data fs (rows₁ ++ ⟨name, []⟩ :: rows₂) year
      = download_monitoring_data fs (rows₁ ++ rows₂) year := by
  unfold download_monitoring_data
  rw [List.foldl_append, List.foldl_append, List.foldl_cons,
    processSite_empty_links]

/-- The failure list is a sublist of the processed site names, in
processing order. -/
theorem failNames_sublist (year : ℤ) :
    ∀ (rows : List SiteRow) (fs : List String),
      List.Sublist (failNames year fs rows) (rows.map SiteRow.name) := by
  intro rows
  induction rows with
  | nil => intro fs; simp [failNames]
  | cons r rs ih =>
      intro fs
      rw [failNames, List.map_cons]
      by_cases hc : r.links ≠ [] ∧ (siteRun year r.links fs).2 = 0
      · rw [if_pos hc]
        exact List.Sublist.cons₂ r.name (ih _)
      · rw [if_neg hc]
        simp only [List.nil_append]
        exact List.Sublist.cons r.name (ih _)

/-- Claim C9: the failure list of a report is a sublist of the processed
site names in processing order — so each site contributes at most one
entry, and when site names are distinct (the catalog invariant) no name
repeats in the failure list. -/
theorem claim_C9_failures_ordered_no_repeat (fs : List String)
    (rows : List SiteRow) (year : ℤ) :
    List.Sublist ((download_monitoring_data fs rows year).2.failures)
        (rows.map SiteRow.name) ∧
      ((rows.map SiteRow.name).Nodup →
        (download_monitoring_data fs rows year).2.failures.Nodup) := by
  rw [download_report_eq]
  exact ⟨failNames_sublist year rows fs,
    fun hnd => (failNames_sublist year rows fs).nodup hnd⟩

/-- Claim C9 witness: two sites named A and B, one failing; the failure
list is a sublist of the name list and has no duplicate. -/
theorem claim_C9_witness :
    List.Sublist ((download_monitoring_data []
        [⟨"A", [("x", "u")]⟩, ⟨"B", []⟩] 2019).2.failures) ["A", "B"] ∧
      (download_monitoring_data []
        [⟨"A", [("x", "u")]⟩, ⟨"B", []⟩] 2019).2.failures.Nodup := by
  have h := claim_C9_failures_ordered_no_repeat []
    [⟨"A", [("x", "u")]⟩, ⟨"B", []⟩] 2019
  exact ⟨h.1, h.2 (by decide)⟩

/-- Claim C3, counterexample: a single site whose link list contains the
requested year twice with two distinct hrefs gets two new files written
in one invocation, so successCount = 2 while the number of sites for
which a new file was written is 1 — the claimed equality of successCount
with a count of sites fails. -/
theorem claim_C3_counterexample :
    (download_monitoring_data []
        [⟨"Site S", [("2019", "h/f1.csv"), ("2019", "h/f2.csv")]⟩]
        2019).2.successCount = 2 ∧
      (perSiteNew 2019 []
        [⟨"Site S", [("2019", "h/f1.csv"), ("2019", "h/f2.csv")]⟩]).countP
        (fun d => decide (0 < d)) = 1 := by
  constructor
  · rfl
  · rfl

/-! ### _check_for_image_download (lines 376-394)

The method probes the image directory for site_name0.jpg, site_name1.jpg,
... until the first missing index, collecting the names (without the
.jpg extension); if none is found it returns the single marker entry.
The directory is a list of file names; the while loop is rendered with a
fuel bound of one more than the directory size, which the proofs show is
never exhausted: the probed names for distinct indices are distinct, so
the first missing index is at most the directory size. -/

/-- The probed file name for one index. -/
def imgName (site : String) (v : Nat) : String :=
  site ++ toString v ++ ".jpg"

/-- The while loop of lines 386-391. -/
def imageLoop (fs : List String) (site : String) : Nat → Nat → List String
  | 0, _ => []
  | fuel + 1, val =>
      if imgName site val ∈ fs then
        (site ++ toString val) :: imageLoop fs site fuel (val + 1)
      else []

/-- Embedding of _check_for_image_download. -/
def check_for_image_download (fs : List String) (site : String) :
    List String :=
  let l := imageLoop fs site (fs.length + 1) 0
  if l.length = 0 then ["No Downloaded Images"] else l

theorem imageLoop_eq_range (fs : List String) (site : String) (k : Nat)
    (hkmem : imgName site k ∉ fs) (hmemlt : ∀ v, v < k → imgName site v ∈ fs) :
    ∀ (fuel val : Nat), val ≤ k → k - val < fuel →
      imageLoop fs site fuel val
        = (List.range' val (k - val)).map (fun v => site ++ toString v) := by
  intro fuel
  induction fuel with
  | zero => intro val _ h; omega
  | succ fuel ih =>
      intro val hval hlt
      by_cases hvk : val = k
      · subst hvk
        rw [imageLoop, if_neg hkmem]
        simp
      · have hvlt : val < k := lt_of_le_of_ne hval hvk
        rw [imageLoop, if_pos (hmemlt val hvlt)]
        rw [ih (val + 1) (by omega) (by omega)]
        have hsub : k - val = (k - (val + 1)) + 1 := by omega
        rw [hsub, List.range'_succ]
        rfl

/-- Claim C10: for every site name, _check_for_image_download returns a
nonempty list; it lists the consecutively numbered image names present
on disk starting at index 0 (k being the first missing index), and when
no image exists it returns the single marker entry. -/
theorem claim_C10_image_list (fs : List String) (site : String) (k : Nat)
    (hk : k ≤ fs.length) (hmemlt : ∀ v, v < k → imgName site v ∈ fs)
    (hkmem : imgName site k ∉ fs) :
    check_for_image_download fs site
        = (if k = 0 then ["No Downloaded Images"]
           else (List.range k).map (fun v => site ++ toString v)) ∧
      check_for_image_download fs site ≠ [] := by
  have hloop : imageLoop fs site (fs.length + 1) 0
      = (List.range' 0 k).map (fun v => site ++ toString v) := by
    have := imageLoop_eq_range fs site k hkmem hmemlt (fs.length + 1) 0
      (by omega) (by omega)
    simpa using this
  have hrange : (List.range' 0 k) = List.range k :=
    (List.range_eq_range' k).symm
  rw [hrange] at hloop
  unfold check_for_image_download
  rw [hloop]
  by_cases hz : k = 0
  · subst hz
    simp
  · have hlen : ((List.range k).map (fun v => site ++ toString v)).length
        = k := by simp
    rw [if_neg (by omega), if_neg hz]
    refine ⟨rfl, ?_⟩
    intro hc
    rw [hc] at hlen
    simp at hlen
    omega

/-- Claim C10 witness: with A0.jpg and A1.jpg on disk (and no A2.jpg),
the returned list is the two image names, nonempty; the marker case is
exercised through k = 0 in the theorem. -/
theorem claim_C10_witness :
    check_for_image_download ["A0.jpg", "A1.jpg"] "A" = ["A0", "A1"] ∧
      check_for_image_download ["A0.jpg", "A1.jpg"] "A" ≠ [] := by
  have h := claim_C10_image_list ["A0.jpg", "A1.jpg"] "A" 2
    (by decide) (by decide) (by decide)
  refine ⟨?_, h.2⟩
  rw [h.1]
  decide

/-- Claim C4 witness: scenario B of the spec — the reference point at
the origin and a site at (100000, 0) with radius exactly 100000: the
boundary site is excluded, so its distance is not strictly below the
radius, and indeed it is not a member of the returned rows. -/
theorem claim_C4_witness :
    (⟨"Site B", Coord.pair 100000 0⟩ : Row) ∉
      ([⟨"Site A", Coord.pair 0 0⟩] : List Row) := by
  have h := claim_C4_strict_inequality
    [⟨"Site A", Coord.pair 0 0⟩, ⟨"Site B", Coord.pair 100000 0⟩]
    [⟨"Site A", Coord.pair 0 0⟩] 0 0 100000
    (by norm_num [find_sites_by_distance, distColumn, distCell, strGet,
      filterKept, keepB])
    ⟨"Site B", Coord.pair 100000 0⟩ (by simp) 100000 0 rfl
  exact h.2 (by norm_num)

end AirQuality
